import Mathlib

/-!
Verification of the buildkitd autoscaling TCP proxy (`main.go`, `kubernetes.go`).

The Go code is shallowly embedded: each function that a claim depends on is
translated into an executable Lean definition over explicit inputs (the results
of Kubernetes API calls are supplied as oracle values, since the adapter passes
them through without retrying). Machine integers (`int32`, `int64`) are modelled
as `Int`; the counters never approach overflow in the claims considered.
-/

namespace BuildkitdAutoscaler

/-- Replica snapshot returned by `GetStatefulSetStatus` (`kubernetes.go`,
`StatefulSetStatus`). -/
structure StatefulSetStatus where
  desiredReplicas : Int
  currentReplicas : Int
  readyReplicas : Int
deriving DecidableEq, Repr

/-- Classification of Kubernetes API errors relevant to the code: the code
distinguishes "not found" (`apierrors.IsNotFound`) from every other error. -/
inductive K8sErr where
  | notFound
  | other
deriving DecidableEq, Repr

/-- The `spec` part of a StatefulSet object: `spec.replicas` is a `*int32` in
Go, hence an `Option Int` here (`nil` = `none`). -/
structure StatefulSetSpec where
  replicas : Option Int
deriving DecidableEq, Repr

/-- The `status` part of a StatefulSet object (`status.replicas`,
`status.readyReplicas`). -/
structure StatefulSetObjStatus where
  replicas : Int
  readyReplicas : Int
deriving DecidableEq, Repr

/-- A StatefulSet object as fetched from the API server. -/
structure StatefulSet where
  spec : StatefulSetSpec
  status : StatefulSetObjStatus
deriving DecidableEq, Repr

/-- Outcome of a Go function call that may return a value, return an error, or
panic (Go's nil-pointer dereference panics rather than returning an error). -/
inductive GoOutcome (α : Type) where
  | ok (a : α)
  | err (e : K8sErr)
  | panics
deriving DecidableEq, Repr

/-- `GetStatefulSetStatus` (`kubernetes.go` lines 70-85): on an API error the
error is wrapped and returned (not-found kept distinguishable); on success the
status is built by dereferencing `sts.Spec.Replicas` unconditionally, which in
Go panics when the pointer is nil. -/
def getStatefulSetStatus (apiGet : Except K8sErr StatefulSet) :
    GoOutcome StatefulSetStatus :=
  match apiGet with
  | .error e => .err e
  | .ok sts =>
    match sts.spec.replicas with
    | none => .panics
    | some d => .ok ⟨d, sts.status.replicas, sts.status.readyReplicas⟩

/-- The stabilization condition checked by `WaitForStatefulSetReady`
(`kubernetes.go` lines 119-127): `ready ≥ expected` and then
`current == desired && ready == desired`. -/
def readyPredicate (expected : Int) (s : StatefulSetStatus) : Bool :=
  expected ≤ s.readyReplicas &&
    (s.currentReplicas == s.desiredReplicas && s.readyReplicas == s.desiredReplicas)

/-- The poll condition closure passed to `wait.PollImmediate`
(`kubernetes.go` lines 101-129): a status-query error is logged and polling
continues (`return false, nil`); otherwise the stabilization predicate decides.
The closure never returns a non-nil error. -/
def waitCondition (expected : Int) (res : Except K8sErr StatefulSetStatus) :
    Except K8sErr Bool :=
  match res with
  | .error _ => .ok false
  | .ok s => .ok (readyPredicate expected s)

/-- Errors `wait.PollImmediate` can produce: the deadline elapsed, or the
condition function itself returned an error (which aborts polling). -/
inductive WaitError where
  | timedOut
  | condErr (e : K8sErr)
deriving DecidableEq, Repr

/-- `wait.PollImmediate` semantics: run the condition at poll index `i`; a
condition error aborts with that error, `true` succeeds, `false` moves to the
next poll; exhausting the poll budget is a timeout. -/
def pollImmediateAux (cond : Nat → Except K8sErr Bool) :
    Nat → Nat → Except WaitError Unit
  | _, 0 => .error .timedOut
  | i, n + 1 =>
    match cond i with
    | .error e => .error (.condErr e)
    | .ok true => .ok ()
    | .ok false => pollImmediateAux cond (i + 1) n

/-- The fixed polling interval: `time.Second*5` in `WaitForStatefulSetReady`. -/
def pollIntervalSeconds : Nat := 5

/-- The wall-clock instant (seconds after the call) of poll number `i`:
one check immediately, then one per fixed interval. -/
def pollTimeSeconds (i : Nat) : Nat := i * pollIntervalSeconds

/-- Number of polls that fit before the timeout: the immediate check plus one
per full interval elapsed within the timeout window. -/
def numPolls (timeoutSeconds : Nat) : Nat := timeoutSeconds / pollIntervalSeconds + 1

/-- `waitForReadyTimeout = 5 * time.Minute` (`main.go` line 45), in seconds. -/
def waitForReadyTimeoutSeconds : Nat := 300

/-- `WaitForStatefulSetReady` (`kubernetes.go` lines 100-130): polls the status
sequence (the result of `GetStatefulSetStatus` at each poll instant) via
`wait.PollImmediate` with a 5-second interval until the stabilization predicate
holds or the timeout elapses. -/
def waitForStatefulSetReady (statuses : Nat → Except K8sErr StatefulSetStatus)
    (expected : Int) (timeoutSeconds : Nat) : Except WaitError Unit :=
  pollImmediateAux (fun i => waitCondition expected (statuses i)) 0 (numPolls timeoutSeconds)

/-- The stabilization predicate exactly as the spec words it:
"ready ≥ expected AND current == desired AND ready == desired AND
desired ≥ expected". -/
def specReadyPredicate (expected : Int) (s : StatefulSetStatus) : Prop :=
  expected ≤ s.readyReplicas ∧ s.currentReplicas = s.desiredReplicas ∧
    s.readyReplicas = s.desiredReplicas ∧ expected ≤ s.desiredReplicas

/-- The condition closure as a pure Bool (it never errors). -/
def waitConditionB (expected : Int) (res : Except K8sErr StatefulSetStatus) : Bool :=
  match res with
  | .error _ => false
  | .ok s => readyPredicate expected s

instance (expected : Int) (s : StatefulSetStatus) :
    Decidable (specReadyPredicate expected s) := by
  unfold specReadyPredicate
  infer_instance

theorem waitCondition_eq_ok (expected : Int) (res : Except K8sErr StatefulSetStatus) :
    waitCondition expected res = .ok (waitConditionB expected res) := by
  cases res <;> rfl

theorem pollImmediateAux_ok_iff (f : Nat → Bool) (i n : Nat) :
    pollImmediateAux (fun j => .ok (f j)) i n = .ok () ↔
      ∃ k, k < n ∧ f (i + k) = true := by
  induction n generalizing i with
  | zero => simp [pollImmediateAux]
  | succ n ih =>
    simp only [pollImmediateAux]
    cases hf : f i
    · simp only [hf]
      rw [ih (i + 1)]
      constructor
      · rintro ⟨k, hk, hfk⟩
        exact ⟨k + 1, by omega, by simpa [Nat.add_comm, Nat.add_left_comm] using hfk⟩
      · rintro ⟨k, hk, hfk⟩
        cases k with
        | zero => simp at hfk; simp [hfk] at hf
        | succ k =>
          exact ⟨k, by omega, by simpa [Nat.add_comm, Nat.add_left_comm] using hfk⟩
    · simp only [hf]
      constructor
      · intro _; exact ⟨0, by omega, by simpa using hf⟩
      · intro _; trivial

theorem pollImmediateAux_never_condErr (f : Nat → Bool) (i n : Nat) :
    pollImmediateAux (fun j => .ok (f j)) i n = .ok () ∨
      pollImmediateAux (fun j => .ok (f j)) i n = .error .timedOut := by
  induction n generalizing i with
  | zero => right; rfl
  | succ n ih =>
    simp only [pollImmediateAux]
    cases hf : f i
    · simpa only [hf] using ih (i + 1)
    · left; rfl

theorem waitForStatefulSetReady_eq_poll (statuses : Nat → Except K8sErr StatefulSetStatus)
    (expected : Int) (timeoutSeconds : Nat) :
    waitForStatefulSetReady statuses expected timeoutSeconds =
      pollImmediateAux (fun j => .ok (waitConditionB expected (statuses j))) 0
        (numPolls timeoutSeconds) := by
  unfold waitForStatefulSetReady
  congr 1
  funext j
  exact waitCondition_eq_ok expected (statuses j)

theorem readyPredicate_iff_spec (expected : Int) (s : StatefulSetStatus) :
    readyPredicate expected s = true ↔ specReadyPredicate expected s := by
  unfold readyPredicate specReadyPredicate
  simp only [Bool.and_eq_true, decide_eq_true_eq, beq_iff_eq]
  constructor
  · rintro ⟨h1, h2, h3⟩
    exact ⟨h1, h2, h3, by omega⟩
  · rintro ⟨h1, h2, h3, _⟩
    exact ⟨h1, h2, h3⟩

theorem numPolls_iff_time (T k : Nat) : k < numPolls T ↔ pollTimeSeconds k ≤ T := by
  unfold numPolls pollTimeSeconds pollIntervalSeconds
  omega

/-- A concrete status sequence used to instantiate the polling theorems: the
first query fails with not-found, every later query reports a stable single
replica. -/
def exStatuses : Nat → Except K8sErr StatefulSetStatus := fun n =>
  if n = 0 then .error .notFound else .ok ⟨1, 1, 1⟩

/-- Claim C3: `WaitForStatefulSetReady` succeeds iff some poll before the
timeout sees a status satisfying `ready ≥ expected ∧ current = desired ∧
ready = desired ∧ desired ≥ expected`; it checks once immediately (poll 0 at
time 0) and then at a fixed 5-second interval, and when no poll within the
timeout satisfies the predicate it returns a timeout error. -/
theorem waitForStatefulSetReady_succeeds_iff_stabilized
    (statuses : Nat → Except K8sErr StatefulSetStatus) (expected : Int) (T : Nat) :
    (waitForStatefulSetReady statuses expected T = .ok () ↔
      ∃ k, pollTimeSeconds k ≤ T ∧
        ∃ s, statuses k = .ok s ∧ specReadyPredicate expected s) ∧
    ((¬ ∃ k, pollTimeSeconds k ≤ T ∧
        ∃ s, statuses k = .ok s ∧ specReadyPredicate expected s) →
      waitForStatefulSetReady statuses expected T = .error .timedOut) ∧
    pollTimeSeconds 0 = 0 ∧
    (∀ i, pollTimeSeconds (i + 1) = pollTimeSeconds i + 5) := by
  have hcond : ∀ k, waitConditionB expected (statuses k) = true ↔
      ∃ s, statuses k = .ok s ∧ specReadyPredicate expected s := by
    intro k
    unfold waitConditionB
    cases h : statuses k with
    | error e => simp
    | ok s =>
      rw [readyPredicate_iff_spec]
      constructor
      · intro hs; exact ⟨s, rfl, hs⟩
      · rintro ⟨s', hs', hp⟩
        cases hs'
        exact hp
  have hiff : waitForStatefulSetReady statuses expected T = .ok () ↔
      ∃ k, pollTimeSeconds k ≤ T ∧
        ∃ s, statuses k = .ok s ∧ specReadyPredicate expected s := by
    rw [waitForStatefulSetReady_eq_poll,
      pollImmediateAux_ok_iff (fun j => waitConditionB expected (statuses j)) 0
        (numPolls T)]
    constructor
    · rintro ⟨k, hk, hfk⟩
      exact ⟨k, (numPolls_iff_time T k).mp hk, (hcond k).mp (by simpa using hfk)⟩
    · rintro ⟨k, hk, hs⟩
      exact ⟨k, (numPolls_iff_time T k).mpr hk, by simpa using (hcond k).mpr hs⟩
  refine ⟨hiff, ?_, rfl, fun i => by unfold pollTimeSeconds pollIntervalSeconds; omega⟩
  intro hnone
  rcases pollImmediateAux_never_condErr
      (fun j => waitConditionB expected (statuses j)) 0 (numPolls T) with hok | hto
  · exact absurd (hiff.mp (by rw [waitForStatefulSetReady_eq_poll]; exact hok)) hnone
  · rw [waitForStatefulSetReady_eq_poll]; exact hto

/-- Claim C8: a "not found" status-query failure during readiness polling does
not make the wait fail: at that poll the condition closure yields
"not yet ready, keep polling" (`ok false`), the wait never surfaces a
query error (its result is success or timeout only), and a later poll
satisfying the stabilization condition still yields success. -/
theorem waitForStatefulSetReady_tolerates_notFound
    (statuses : Nat → Except K8sErr StatefulSetStatus) (expected : Int) (T : Nat)
    (i : Nat) (hi : statuses i = .error .notFound) :
    waitCondition expected (statuses i) = .ok false ∧
    (∀ e, waitForStatefulSetReady statuses expected T ≠ .error (.condErr e)) ∧
    (waitForStatefulSetReady statuses expected T = .ok () ∨
      waitForStatefulSetReady statuses expected T = .error .timedOut) ∧
    ((∃ k, k < numPolls T ∧ waitConditionB expected (statuses k) = true) →
      waitForStatefulSetReady statuses expected T = .ok ()) := by
  have hnever := pollImmediateAux_never_condErr
    (fun j => waitConditionB expected (statuses j)) 0 (numPolls T)
  have hrw := waitForStatefulSetReady_eq_poll statuses expected T
  refine ⟨by rw [hi]; rfl, ?_, ?_, ?_⟩
  · intro e
    rw [hrw]
    rcases hnever with hok | hto
    · rw [hok]; intro h; cases h
    · rw [hto]; intro h; cases h
  · rw [hrw]; exact hnever
  · rintro ⟨k, hk, hfk⟩
    rw [hrw]
    exact (pollImmediateAux_ok_iff _ 0 (numPolls T)).mpr ⟨k, hk, by simpa using hfk⟩

/-- Witness for C8 at a concrete input: the first poll fails with not-found,
the second poll reports a stable single replica, and the wait succeeds. -/
theorem waitForStatefulSetReady_tolerates_notFound_witness :
    waitForStatefulSetReady exStatuses 1 300 = .ok () := by
  have h := waitForStatefulSetReady_tolerates_notFound exStatuses 1 300 0 rfl
  exact h.2.2.2 ⟨1, by decide, by decide⟩

/-- Witness for C3 at a concrete input: with the same sequence, success is
equivalent to the existence of a stabilized poll, exhibited at poll 1. -/
theorem waitForStatefulSetReady_succeeds_iff_stabilized_witness :
    waitForStatefulSetReady exStatuses 1 300 = .ok () ∧ pollTimeSeconds 0 = 0 := by
  have h := waitForStatefulSetReady_succeeds_iff_stabilized exStatuses 1 300
  refine ⟨h.1.mpr ⟨1, by decide, ⟨1, 1, 1⟩, rfl, by decide⟩, h.2.2.1⟩

/-- Claim C10: `GetStatefulSetStatus` on a successful API get dereferences
`spec.replicas` unconditionally: with the pointer non-nil it totally returns
the replica snapshot; with the pointer nil it panics instead of returning an
error; an API error is returned as an error. -/
theorem getStatefulSetStatus_deref (sts : StatefulSet) (e : K8sErr) :
    (∀ d, sts.spec.replicas = some d →
      getStatefulSetStatus (.ok sts) =
        .ok ⟨d, sts.status.replicas, sts.status.readyReplicas⟩) ∧
    (sts.spec.replicas = none →
      getStatefulSetStatus (.ok sts) = .panics ∧
        ∀ e', getStatefulSetStatus (.ok sts) ≠ .err e') ∧
    getStatefulSetStatus (.error e) = .err e := by
  refine ⟨?_, ?_, rfl⟩
  · intro d hd
    simp [getStatefulSetStatus, hd]
  · intro hd
    refine ⟨by simp [getStatefulSetStatus, hd], ?_⟩
    intro e'
    simp [getStatefulSetStatus, hd]

/-- Witness for C10 at concrete inputs: a set `spec.replicas = 2` yields the
snapshot, an unset `spec.replicas` panics. -/
theorem getStatefulSetStatus_deref_witness :
    getStatefulSetStatus (.ok ⟨⟨some 2⟩, ⟨1, 1⟩⟩) = .ok ⟨2, 1, 1⟩ ∧
    getStatefulSetStatus (.ok ⟨⟨none⟩, ⟨1, 1⟩⟩) = .panics := by
  have h1 := (getStatefulSetStatus_deref ⟨⟨some 2⟩, ⟨1, 1⟩⟩ .other).1 2 rfl
  have h2 := (getStatefulSetStatus_deref ⟨⟨none⟩, ⟨1, 1⟩⟩ .other).2.1 rfl
  exact ⟨h1, h2.1⟩

/-- The configuration values used by `handleConnection` to build the backend
address (`main.go` globals populated from flags / environment). -/
structure ProxyConfig where
  stsName : String
  headlessSvcName : String
  nsName : String
  targetPort : String
deriving DecidableEq, Repr

/-- The backend dial target built in `handleConnection` (`main.go` lines
322-327): `fmt.Sprintf("%s-0.%s.%s.svc.cluster.local:%s", name, headlessSvc,
namespace, port)`. -/
def targetAddr (cfg : ProxyConfig) : String :=
  cfg.stsName ++ "-0." ++ cfg.headlessSvcName ++ "." ++ cfg.nsName ++
    ".svc.cluster.local:" ++ cfg.targetPort

/-- Modelled from the spec: the dial-target format the spec states,
`<workloadName>-0.<headlessServiceName>.<namespace>:<port>`, for comparison
with the address the code builds. -/
def claimedTargetAddr (cfg : ProxyConfig) : String :=
  cfg.stsName ++ "-0." ++ cfg.headlessSvcName ++ "." ++ cfg.nsName ++ ":" ++
    cfg.targetPort

/-- Externally visible actions `handleConnection` performs, in order. -/
inductive ConnAction where
  | getStatus
  | scaleCall (target : Int)
  | waitReady (expected : Int) (timeoutSeconds : Nat)
  | dial (addr : String)
  | relay
deriving DecidableEq, Repr

/-- Whether the connection was proxied or aborted (every `return` before the
relay closes the client connection via the deferred cleanup). -/
inductive ConnOutcome where
  | aborted
  | proxied
deriving DecidableEq, Repr

/-- The decision core of `handleConnection` (`main.go` lines 291-371), from the
status query to the relay. Oracle booleans stand for the success of the scale
call, the readiness wait and the dial. Returns the action trace and outcome. -/
def handleConnectionCore (cfg : ProxyConfig) (isFirst : Bool)
    (statusResult : Except K8sErr StatefulSetStatus)
    (scaleUpOk waitReadyOk dialOk : Bool) : List ConnAction × ConnOutcome :=
  match statusResult with
  | .error _ => ([.getStatus], .aborted)
  | .ok status =>
    if isFirst && (status.readyReplicas == 0) then
      if scaleUpOk then
        if waitReadyOk then
          if dialOk then
            ([.getStatus, .scaleCall 1, .waitReady 1 waitForReadyTimeoutSeconds,
              .dial (targetAddr cfg), .relay], .proxied)
          else
            ([.getStatus, .scaleCall 1, .waitReady 1 waitForReadyTimeoutSeconds,
              .dial (targetAddr cfg)], .aborted)
        else
          ([.getStatus, .scaleCall 1, .waitReady 1 waitForReadyTimeoutSeconds],
            .aborted)
      else ([.getStatus, .scaleCall 1], .aborted)
    else if status.readyReplicas == 0 then
      ([.getStatus], .aborted)
    else if dialOk then
      ([.getStatus, .dial (targetAddr cfg), .relay], .proxied)
    else
      ([.getStatus, .dial (targetAddr cfg)], .aborted)

/-- The scale targets requested along a connection trace. -/
def connScaleTargets (tr : List ConnAction) : List Int :=
  tr.filterMap fun a =>
    match a with
    | .scaleCall t => some t
    | _ => none

/-- An example configuration (the application defaults). -/
def cfgEx : ProxyConfig := ⟨"buildkitd", "buildkitd-headless", "default", "8372"⟩

theorem connScaleTargets_one_iff (cfg : ProxyConfig) (isFirst : Bool)
    (statusResult : Except K8sErr StatefulSetStatus)
    (scaleUpOk waitReadyOk dialOk : Bool) :
    connScaleTargets
        (handleConnectionCore cfg isFirst statusResult scaleUpOk waitReadyOk dialOk).1
      = [1] ↔
      isFirst = true ∧ ∃ s, statusResult = .ok s ∧ s.readyReplicas = 0 := by
  cases statusResult with
  | error e => simp [handleConnectionCore, connScaleTargets]
  | ok s =>
    by_cases h0 : s.readyReplicas = 0
    · cases isFirst with
      | false => simp [handleConnectionCore, connScaleTargets, h0]
      | true =>
        cases scaleUpOk <;> cases waitReadyOk <;> cases dialOk <;>
          simp [handleConnectionCore, connScaleTargets, h0]
    · cases isFirst <;> cases dialOk <;>
        simp [handleConnectionCore, connScaleTargets, h0]

theorem connScaleTargets_empty (cfg : ProxyConfig) (isFirst : Bool)
    (statusResult : Except K8sErr StatefulSetStatus)
    (scaleUpOk waitReadyOk dialOk : Bool)
    (h : ¬ (isFirst = true ∧ ∃ s, statusResult = .ok s ∧ s.readyReplicas = 0)) :
    connScaleTargets
        (handleConnectionCore cfg isFirst statusResult scaleUpOk waitReadyOk dialOk).1
      = [] := by
  cases statusResult with
  | error e => simp [handleConnectionCore, connScaleTargets]
  | ok s =>
    by_cases h0 : s.readyReplicas = 0
    · cases isFirst with
      | false => simp [handleConnectionCore, connScaleTargets, h0]
      | true => exact absurd ⟨rfl, s, rfl, h0⟩ h
    · cases isFirst <;> cases dialOk <;>
        simp [handleConnectionCore, connScaleTargets, h0]

theorem scaleUp_then_wait_then_dial (cfg : ProxyConfig)
    (statusResult : Except K8sErr StatefulSetStatus) (waitReadyOk dialOk : Bool)
    (s : StatefulSetStatus) (hs : statusResult = .ok s) (h0 : s.readyReplicas = 0) :
    (handleConnectionCore cfg true statusResult true waitReadyOk dialOk).1.take 3 =
      [.getStatus, .scaleCall 1, .waitReady 1 waitForReadyTimeoutSeconds] ∧
    (waitReadyOk = true →
      (handleConnectionCore cfg true statusResult true waitReadyOk dialOk).1.take 4 =
        [.getStatus, .scaleCall 1, .waitReady 1 waitForReadyTimeoutSeconds,
          .dial (targetAddr cfg)]) := by
  subst hs
  cases waitReadyOk <;> cases dialOk <;> simp [handleConnectionCore, h0]

theorem nonFirst_zeroReady_rejected (cfg : ProxyConfig)
    (statusResult : Except K8sErr StatefulSetStatus)
    (scaleUpOk waitReadyOk dialOk : Bool)
    (s : StatefulSetStatus) (hs : statusResult = .ok s) (h0 : s.readyReplicas = 0) :
    handleConnectionCore cfg false statusResult scaleUpOk waitReadyOk dialOk =
      ([.getStatus], .aborted) := by
  subst hs
  simp [handleConnectionCore, h0]

theorem readyPositive_direct_dial (cfg : ProxyConfig) (isFirst : Bool)
    (statusResult : Except K8sErr StatefulSetStatus)
    (scaleUpOk waitReadyOk dialOk : Bool)
    (s : StatefulSetStatus) (hs : statusResult = .ok s) (h0 : 0 < s.readyReplicas) :
    (handleConnectionCore cfg isFirst statusResult scaleUpOk waitReadyOk dialOk).1.take 2 =
      [.getStatus, .dial (targetAddr cfg)] ∧
    (∀ e t, ConnAction.waitReady e t ∉
      (handleConnectionCore cfg isFirst statusResult scaleUpOk waitReadyOk dialOk).1) := by
  subst hs
  have h0' : s.readyReplicas ≠ 0 := by omega
  cases isFirst <;> cases dialOk <;> simp [handleConnectionCore, h0']

theorem statusError_aborts (cfg : ProxyConfig) (isFirst : Bool)
    (scaleUpOk waitReadyOk dialOk : Bool) (e : K8sErr) :
    handleConnectionCore cfg isFirst (.error e) scaleUpOk waitReadyOk dialOk =
      ([.getStatus], .aborted) := by
  simp [handleConnectionCore]

/-- Claim C1: a scale-up (one `scaleCall 1`) happens iff the connection is the
first one and the queried status reports zero ready replicas; in that case it
is followed by a readiness wait with the 5-minute timeout and then the dial; a
non-first connection seeing zero ready replicas aborts immediately with no
scale call; a connection seeing ready > 0 dials directly without any scale or
wait; a status-query error aborts before any scale call. -/
theorem handleConnection_scaleUp_policy (cfg : ProxyConfig) (isFirst : Bool)
    (statusResult : Except K8sErr StatefulSetStatus)
    (scaleUpOk waitReadyOk dialOk : Bool) :
    (connScaleTargets
        (handleConnectionCore cfg isFirst statusResult scaleUpOk waitReadyOk dialOk).1
      = [1] ↔
      isFirst = true ∧ ∃ s, statusResult = .ok s ∧ s.readyReplicas = 0) ∧
    (¬ (isFirst = true ∧ ∃ s, statusResult = .ok s ∧ s.readyReplicas = 0) →
      connScaleTargets
        (handleConnectionCore cfg isFirst statusResult scaleUpOk waitReadyOk dialOk).1
      = []) ∧
    (∀ s, statusResult = .ok s → s.readyReplicas = 0 → isFirst = true →
      scaleUpOk = true →
      (handleConnectionCore cfg isFirst statusResult scaleUpOk waitReadyOk dialOk).1.take 3 =
        [.getStatus, .scaleCall 1, .waitReady 1 waitForReadyTimeoutSeconds] ∧
      (waitReadyOk = true →
        (handleConnectionCore cfg isFirst statusResult scaleUpOk waitReadyOk dialOk).1.take 4 =
          [.getStatus, .scaleCall 1, .waitReady 1 waitForReadyTimeoutSeconds,
            .dial (targetAddr cfg)])) ∧
    (∀ s, statusResult = .ok s → s.readyReplicas = 0 → isFirst = false →
      handleConnectionCore cfg isFirst statusResult scaleUpOk waitReadyOk dialOk =
        ([.getStatus], .aborted)) ∧
    (∀ s, statusResult = .ok s → 0 < s.readyReplicas →
      (handleConnectionCore cfg isFirst statusResult scaleUpOk waitReadyOk dialOk).1.take 2 =
        [.getStatus, .dial (targetAddr cfg)] ∧
      (∀ e t, ConnAction.waitReady e t ∉
        (handleConnectionCore cfg isFirst statusResult scaleUpOk waitReadyOk dialOk).1)) ∧
    (∀ e, statusResult = .error e →
      handleConnectionCore cfg isFirst statusResult scaleUpOk waitReadyOk dialOk =
        ([.getStatus], .aborted)) := by
  refine ⟨connScaleTargets_one_iff cfg isFirst statusResult scaleUpOk waitReadyOk dialOk,
    connScaleTargets_empty cfg isFirst statusResult scaleUpOk waitReadyOk dialOk,
    ?_, ?_, ?_, ?_⟩
  · intro s hs h0 hf hup
    subst hf; subst hup
    exact scaleUp_then_wait_then_dial cfg statusResult waitReadyOk dialOk s hs h0
  · intro s hs h0 hf
    subst hf
    exact nonFirst_zeroReady_rejected cfg statusResult scaleUpOk waitReadyOk dialOk s hs h0
  · intro s hs h0
    exact readyPositive_direct_dial cfg isFirst statusResult scaleUpOk waitReadyOk dialOk s hs h0
  · intro e he
    subst he
    exact statusError_aborts cfg isFirst scaleUpOk waitReadyOk dialOk e

/-- Witness for C1 at concrete inputs: the first connection seeing zero ready
replicas issues exactly one scale-up to 1; a second connection seeing zero
ready replicas aborts with no scale call. -/
theorem handleConnection_scaleUp_policy_witness :
    connScaleTargets
        (handleConnectionCore cfgEx true (.ok ⟨0, 0, 0⟩) true true true).1 = [1] ∧
    handleConnectionCore cfgEx false (.ok ⟨1, 1, 0⟩) true true true =
      ([.getStatus], .aborted) := by
  have h1 :=
    (handleConnection_scaleUp_policy cfgEx true (.ok ⟨0, 0, 0⟩) true true true).1.mpr
      ⟨rfl, ⟨0, 0, 0⟩, rfl, rfl⟩
  have h2 :=
    (handleConnection_scaleUp_policy cfgEx false (.ok ⟨1, 1, 0⟩) true true true).2.2.2.1
      ⟨1, 1, 0⟩ rfl rfl rfl
  exact ⟨h1, h2⟩

/-- Counterexample for C6 as stated: for the default configuration the dialed
address carries a `.svc.cluster.local` cluster-domain suffix after the
namespace, so it is not the string `<name>-0.<headlessSvc>.<namespace>:<port>`;
the actually-dialed address is the suffixed one. -/
theorem dialTarget_claim_counterexample :
    targetAddr cfgEx ≠ claimedTargetAddr cfgEx ∧
    ConnAction.dial (claimedTargetAddr cfgEx) ∉
      (handleConnectionCore cfgEx true (.ok ⟨1, 1, 1⟩) true true true).1 ∧
    ConnAction.dial (targetAddr cfgEx) ∈
      (handleConnectionCore cfgEx true (.ok ⟨1, 1, 1⟩) true true true).1 := by
  decide

/-- Claim C6 (amended): every address dialed by a proxied connection is exactly
`<workloadName>-0.<headlessServiceName>.<namespace>.svc.cluster.local:<port>` —
deterministic and hardcoded to ordinal instance 0. -/
theorem dialTarget_deterministic (cfg : ProxyConfig) (isFirst : Bool)
    (statusResult : Except K8sErr StatefulSetStatus)
    (scaleUpOk waitReadyOk dialOk : Bool) (addr : String)
    (hmem : ConnAction.dial addr ∈
      (handleConnectionCore cfg isFirst statusResult scaleUpOk waitReadyOk dialOk).1) :
    addr = cfg.stsName ++ "-0." ++ cfg.headlessSvcName ++ "." ++ cfg.nsName ++
      ".svc.cluster.local:" ++ cfg.targetPort := by
  cases statusResult with
  | error e => simp [handleConnectionCore] at hmem
  | ok s =>
    by_cases h0 : s.readyReplicas = 0 <;>
      cases isFirst <;> cases scaleUpOk <;> cases waitReadyOk <;> cases dialOk <;>
        simp [handleConnectionCore, h0, targetAddr] at hmem <;> exact hmem

/-- Witness for the amended C6 at a concrete input: the address dialed under
the default configuration. -/
theorem dialTarget_deterministic_witness :
    "buildkitd-0.buildkitd-headless.default.svc.cluster.local:8372" =
      cfgEx.stsName ++ "-0." ++ cfgEx.headlessSvcName ++ "." ++ cfgEx.nsName ++
        ".svc.cluster.local:" ++ cfgEx.targetPort :=
  dialTarget_deterministic cfgEx true (.ok ⟨1, 1, 1⟩) true true true _ (by decide)

/-- `activeConnectionCount.Add(1)` at connection accept (`main.go` line 240):
returns the post-increment value; `isFirstConnection := currentActive == 1`. -/
def onConnectionOpened (c : Int) : Int × Bool := (c + 1, c + 1 == 1)

/-- `activeConnectionCount.Add(-1)` in the connection's deferred cleanup
(`main.go` line 248): returns the post-decrement value; the scale-down timer is
armed when `newActiveCount == 0`. -/
def onConnectionClosed (c : Int) : Int × Bool := (c - 1, c - 1 == 0)

/-- A connection-lifecycle event. -/
inductive ConnEvent where
  | openConn
  | closeConn
deriving DecidableEq, Repr

/-- Apply one event to the counter, through the code's two operations. -/
def applyConnEvent (c : Int) : ConnEvent → Int
  | .openConn => (onConnectionOpened c).1
  | .closeConn => (onConnectionClosed c).1

/-- The counter value after a trace of events, starting from the initial 0. -/
def countAfter (tr : List ConnEvent) : Int := tr.foldl applyConnEvent 0

/-- Number of opens in a trace. -/
def opensIn (tr : List ConnEvent) : Nat := tr.count .openConn

/-- Number of closes in a trace. -/
def closesIn (tr : List ConnEvent) : Nat := tr.count .closeConn

/-- A trace is well formed when every close is preceded by a matching open:
each observation point sees at least as many opens as closes. -/
def wellFormed (tr : List ConnEvent) : Prop :=
  ∀ n, closesIn (tr.take n) ≤ opensIn (tr.take n)

instance (tr : List ConnEvent) : Decidable (wellFormed tr) :=
  decidable_of_iff (∀ n, n ≤ tr.length → closesIn (tr.take n) ≤ opensIn (tr.take n))
    (by
      unfold wellFormed
      constructor
      · intro h n
        rcases le_or_lt n tr.length with hn | hn
        · exact h n hn
        · rw [List.take_of_length_le (by omega)]
          have := h tr.length (le_refl _)
          rwa [List.take_of_length_le (le_refl _)] at this
      · intro h n _
        exact h n)

theorem foldl_applyConnEvent (tr : List ConnEvent) (c : Int) :
    tr.foldl applyConnEvent c = c + opensIn tr - closesIn tr := by
  induction tr generalizing c with
  | nil => simp [opensIn, closesIn]
  | cons e rest ih =>
    cases e <;>
      simp only [List.foldl_cons, applyConnEvent, onConnectionOpened,
        onConnectionClosed, ih, opensIn, closesIn, List.count_cons] <;>
      simp <;> omega

/-- Claim C4: after any prefix of a well-formed trace the counter equals
opens − closes and is never negative, and the two operations report
first / last exactly at post-value 1 / 0 respectively. -/
theorem connectionCounter_invariant (tr : List ConnEvent) (h : wellFormed tr) :
    (∀ n, countAfter (tr.take n) =
      (opensIn (tr.take n) : Int) - closesIn (tr.take n)) ∧
    (∀ n, 0 ≤ countAfter (tr.take n)) ∧
    (∀ c : Int, (onConnectionOpened c).2 = true ↔ (onConnectionOpened c).1 = 1) ∧
    (∀ c : Int, (onConnectionClosed c).2 = true ↔ (onConnectionClosed c).1 = 0) := by
  have heq : ∀ n, countAfter (tr.take n) =
      (opensIn (tr.take n) : Int) - closesIn (tr.take n) := by
    intro n
    have := foldl_applyConnEvent (tr.take n) 0
    simpa [countAfter] using this
  refine ⟨heq, ?_, ?_, ?_⟩
  · intro n
    rw [heq n]
    have := h n
    omega
  · intro c
    simp [onConnectionOpened]
  · intro c
    simp [onConnectionClosed]

/-- Witness for C4 on a concrete well-formed trace: open, open, close, close
leaves the counter at 0 and it never went negative. -/
theorem connectionCounter_invariant_witness :
    wellFormed [ConnEvent.openConn, .openConn, .closeConn, .closeConn] ∧
    countAfter [ConnEvent.openConn, .openConn, .closeConn, .closeConn] = 0 ∧
    0 ≤ countAfter ([ConnEvent.openConn, .openConn, .closeConn, .closeConn].take 3) := by
  have hwf : wellFormed [ConnEvent.openConn, .openConn, .closeConn, .closeConn] := by
    decide
  have h := connectionCounter_invariant _ hwf
  refine ⟨hwf, ?_, h.2.1 3⟩
  have h4 := h.1 4
  simpa [opensIn, closesIn] using h4

/-- State of the timer machinery in `main.go`: the live connection counter,
the `scaleDownTimer` variable (`slot`, holding the id of the armed timer or
`none`), the set of timers that have been created and neither stopped nor
fired (`pending`), a fresh-id source, and the scale targets requested by fired
callbacks (most recent first). -/
structure TimerState where
  count : Int
  slot : Option Nat
  pending : List Nat
  nextId : Nat
  scaleCalls : List Int
deriving DecidableEq, Repr

/-- Process start: zero connections, no timer, no scale calls. -/
def initTimerState : TimerState := ⟨0, none, [], 0, []⟩

/-- The body of the fired callback after it nils the timer slot (`main.go`
lines 264-274): re-check the live counter; scale to 0 exactly when it is 0,
otherwise abort silently. -/
def timerFiredScaleCalls (count : Int) : List Int :=
  if count == 0 then [0] else []

/-- Events touching the timer machinery: a connection opens (`main.go` lines
240, 281-289), a connection's cleanup runs (lines 248-277), an armed timer
fires (lines 259-275). Firing a stopped timer is a no-op. -/
inductive SysEvent where
  | connOpen
  | connClose
  | fire (id : Nat)
deriving DecidableEq, Repr

/-- One transition of the timer machinery, mirroring `handleConnection`:
an opening connection that is first stops and nils any armed timer; a closing
connection that brings the count to 0 stops any existing timer and arms a
fresh one; a fired (still pending) timer nils the slot and then re-checks the
counter before scaling. -/
def stepTimer (s : TimerState) : SysEvent → TimerState
  | .connOpen =>
    let c := s.count + 1
    if c == 1 then
      match s.slot with
      | some t => { s with count := c, slot := none, pending := s.pending.erase t }
      | none => { s with count := c }
    else { s with count := c }
  | .connClose =>
    let c := s.count - 1
    if c == 0 then
      let pruned :=
        match s.slot with
        | some t => s.pending.erase t
        | none => s.pending
      { count := c, slot := some s.nextId, pending := pruned ++ [s.nextId],
        nextId := s.nextId + 1, scaleCalls := s.scaleCalls }
    else { s with count := c }
  | .fire id =>
    if id ∈ s.pending then
      { s with
        slot := none,
        pending := s.pending.erase id,
        scaleCalls := timerFiredScaleCalls s.count ++ s.scaleCalls }
    else s

/-- The state after a trace of events from process start. -/
def runTimer (evs : List SysEvent) : TimerState :=
  evs.foldl stepTimer initTimerState

/-- The timer invariant: the pending timers are exactly the one referenced by
the slot (hence at most one), and every pending id is below the fresh-id
source. -/
def TimerInv (s : TimerState) : Prop :=
  s.pending = s.slot.toList ∧ ∀ t ∈ s.pending, t < s.nextId

theorem stepTimer_preserves_inv (s : TimerState) (e : SysEvent) (h : TimerInv s) :
    TimerInv (stepTimer s e) := by
  obtain ⟨hp, hfresh⟩ := h
  cases e with
  | connOpen =>
    by_cases hc : s.count + 1 = 1
    · cases hslot : s.slot with
      | some t =>
        rw [hslot] at hp
        constructor <;> simp [stepTimer, hc, hslot, hp]
      | none =>
        rw [hslot] at hp
        constructor
        · simp [stepTimer, hc, hslot, hp]
        · intro t ht
          simp [stepTimer, hc, hslot] at ht ⊢
          exact hfresh t ht
    · constructor
      · simp [stepTimer, hc, hp]
      · intro t ht
        simp [stepTimer, hc] at ht ⊢
        exact hfresh t ht
  | connClose =>
    by_cases hc : s.count - 1 = 0
    · cases hslot : s.slot with
      | some t =>
        rw [hslot] at hp
        constructor
        · simp [stepTimer, hc, hslot, hp]
        · intro u hu
          simp [stepTimer, hc, hslot, hp] at hu ⊢
          omega
      | none =>
        rw [hslot] at hp
        constructor
        · simp [stepTimer, hc, hslot, hp]
        · intro u hu
          simp [stepTimer, hc, hslot, hp] at hu ⊢
          omega
    · constructor
      · simp [stepTimer, hc, hp]
      · intro t ht
        simp [stepTimer, hc] at ht ⊢
        exact hfresh t ht
  | fire id =>
    by_cases hid : id ∈ s.pending
    · cases hslot : s.slot with
      | some t =>
        rw [hslot] at hp
        have : id = t := by
          rw [hp] at hid
          simpa using hid
        subst this
        constructor <;> simp [stepTimer, hid, hp]
      | none =>
        rw [hslot] at hp
        rw [hp] at hid
        simp at hid
    · constructor
      · simpa [stepTimer, hid] using hp
      · intro t ht
        simp [stepTimer, hid] at ht ⊢
        exact hfresh t ht

theorem runTimer_inv (evs : List SysEvent) : TimerInv (runTimer evs) := by
  have hgen : ∀ (l : List SysEvent) (s : TimerState), TimerInv s →
      TimerInv (l.foldl stepTimer s) := by
    intro l
    induction l with
    | nil => intro s hs; exact hs
    | cons e rest ih =>
      intro s hs
      exact ih (stepTimer s e) (stepTimer_preserves_inv s e hs)
  exact hgen evs initTimerState ⟨rfl, by simp [initTimerState]⟩

/-- Claim C5: in every reachable state at most one scale-down timer is
pending (the pending set is exactly the armed slot); a timer is created only
by a close that brings the count to 0; when a replacement is armed while a
timer is armed, the old timer is removed from the pending set and only the
fresh one remains; and a first connection arriving while a timer is armed
cancels it. -/
theorem scaleDownTimer_at_most_one (evs : List SysEvent) (id : Nat) :
    (runTimer evs).pending.length ≤ 1 ∧
    (runTimer evs).pending = (runTimer evs).slot.toList ∧
    ((stepTimer (runTimer evs) .connClose).nextId = (runTimer evs).nextId + 1 ↔
      (runTimer evs).count - 1 = 0) ∧
    ((stepTimer (runTimer evs) .connOpen).nextId = (runTimer evs).nextId ∧
      (stepTimer (runTimer evs) (.fire id)).nextId = (runTimer evs).nextId) ∧
    (∀ t, (runTimer evs).slot = some t → (runTimer evs).count - 1 = 0 →
      (stepTimer (runTimer evs) .connClose).pending = [(runTimer evs).nextId] ∧
        t ∉ (stepTimer (runTimer evs) .connClose).pending) ∧
    ((runTimer evs).count + 1 = 1 →
      (stepTimer (runTimer evs) .connOpen).pending = [] ∧
        (stepTimer (runTimer evs) .connOpen).slot = none) := by
  obtain ⟨hp, hfresh⟩ := runTimer_inv evs
  set s := runTimer evs with hs
  refine ⟨?_, hp, ?_, ⟨?_, ?_⟩, ?_, ?_⟩
  · rw [hp]; cases s.slot <;> simp
  · by_cases hc : s.count - 1 = 0
    · simp [stepTimer, hc]
    · simp [stepTimer, hc]
  · by_cases hc : s.count + 1 = 1
    · cases hslot : s.slot <;> simp [stepTimer, hc, hslot]
    · simp [stepTimer, hc]
  · by_cases hid : id ∈ s.pending <;> simp [stepTimer, hid]
  · intro t hslot hc
    rw [hslot] at hp
    have ht : t < s.nextId := hfresh t (by rw [hp]; simp)
    constructor
    · simp [stepTimer, hc, hslot, hp]
    · simp [stepTimer, hc, hslot, hp]
      omega
  · intro hc
    cases hslot : s.slot with
    | some t =>
      rw [hslot] at hp
      constructor <;> simp [stepTimer, hc, hslot, hp]
    | none =>
      rw [hslot] at hp
      constructor <;> simp [stepTimer, hc, hslot, hp]

/-- Witness for C5 on a concrete run: after open, close (timer armed), open
(timer cancelled), close (fresh timer armed), exactly one timer is pending. -/
theorem scaleDownTimer_at_most_one_witness :
    (runTimer [SysEvent.connOpen, .connClose, .connOpen, .connClose]).pending.length ≤ 1 ∧
    (runTimer [SysEvent.connOpen, .connClose, .connOpen, .connClose]).pending = [1] := by
  have h := scaleDownTimer_at_most_one [SysEvent.connOpen, .connClose, .connOpen, .connClose] 0
  exact ⟨h.1, by decide⟩

/-- Claim C2: the fired callback re-checks the live counter: firing a pending
timer appends exactly one scale-to-0 call when the counter is 0 at that
moment, and no scale call at all when the counter is positive (in particular a
timer firing after a later connection opened, while that connection is live,
never scales down). -/
theorem timerFired_rechecks_counter (s : TimerState) (id : Nat)
    (hid : id ∈ s.pending) :
    (s.count = 0 →
      (stepTimer s (.fire id)).scaleCalls = 0 :: s.scaleCalls) ∧
    (0 < s.count →
      (stepTimer s (.fire id)).scaleCalls = s.scaleCalls) ∧
    (timerFiredScaleCalls s.count = [0] ↔ s.count = 0) := by
  refine ⟨?_, ?_, ?_⟩
  · intro hc
    simp [stepTimer, hid, timerFiredScaleCalls, hc]
  · intro hc
    have : s.count ≠ 0 := by omega
    simp [stepTimer, hid, timerFiredScaleCalls, this]
  · unfold timerFiredScaleCalls
    by_cases hc : s.count = 0 <;> simp [hc]

/-- Witness for C2 on a concrete state: the armed timer of the run
open-close fires with counter 0 and issues exactly one scale-to-0 call. -/
theorem timerFired_rechecks_counter_witness :
    (stepTimer (runTimer [SysEvent.connOpen, .connClose]) (.fire 0)).scaleCalls = [0] := by
  have h := timerFired_rechecks_counter (runTimer [SysEvent.connOpen, .connClose]) 0
    (by decide)
  exact h.1 (by decide)

/-- The two sockets of a proxy session. -/
inductive Sock where
  | client
  | targetSock
deriving DecidableEq, Repr

/-- Socket shutdown operations: TCP half-closes and a full close. -/
inductive SockOp where
  | closeWrite (s : Sock)
  | closeRead (s : Sock)
  | closeFull (s : Sock)
deriving DecidableEq, Repr

/-- Whether an operation is a full socket close. -/
def isFullClose : SockOp → Bool
  | .closeFull _ => true
  | _ => false

/-- `copyData` (`main.go` lines 341-365): when its copy loop completes it
half-closes — `CloseWrite` on its destination, `CloseRead` on its source — and
performs no full close of either socket. -/
def copyDataOps (dst src : Sock) : List SockOp :=
  [SockOp.closeWrite dst, SockOp.closeRead src]

/-- All interleavings of two operation sequences, fuelled for structural
recursion (the fuel chosen below always suffices). -/
def interleavingsFuel : Nat → List SockOp → List SockOp → List (List SockOp)
  | _, [], ys => [ys]
  | _, x :: xs, [] => [x :: xs]
  | 0, _ :: _, _ :: _ => []
  | n + 1, x :: xs, y :: ys =>
    (interleavingsFuel n xs (y :: ys)).map (fun l => x :: l) ++
      (interleavingsFuel n (x :: xs) ys).map (fun l => y :: l)

/-- All interleavings of two operation sequences (the two relay goroutines run
concurrently). -/
def interleavings (xs ys : List SockOp) : List (List SockOp) :=
  interleavingsFuel (xs.length + ys.length) xs ys

/-- The possible socket-operation traces of a relay session (`main.go` lines
336-371): the two directions interleave arbitrarily, `copyWg.Wait()` joins
both, then the deferred closes run — `targetConn.Close()` (deferred last,
so first) and then `clientConn.Close()` inside the first deferred block. -/
def sessionTraces : List (List SockOp) :=
  (interleavings (copyDataOps .targetSock .client) (copyDataOps .client .targetSock)).map
    (fun l => l ++ [SockOp.closeFull .targetSock, SockOp.closeFull .client])

/-- Claim C7: in every interleaving of a relay session, each relay direction
contributes only half-closes (write side of its destination, read side of its
source) and no full close; the two full closes happen only after both
directions completed, and each socket is fully closed exactly once. -/
theorem proxySession_halfClose_discipline (dst src : Sock) (tr : List SockOp)
    (htr : tr ∈ sessionTraces) :
    tr.count (SockOp.closeFull .client) = 1 ∧
    tr.count (SockOp.closeFull .targetSock) = 1 ∧
    (∀ a ∈ tr.take 4, isFullClose a = false) ∧
    tr.drop 4 = [SockOp.closeFull .targetSock, SockOp.closeFull .client] ∧
    SockOp.closeWrite dst ∈ copyDataOps dst src ∧
    SockOp.closeRead src ∈ copyDataOps dst src ∧
    (∀ a ∈ copyDataOps dst src, isFullClose a = false) := by
  cases dst <;> cases src <;> revert tr <;> decide

/-- Witness for C7 on a concrete interleaving: the client-to-target direction
finishes first, then the target-to-client one, then the two full closes. -/
theorem proxySession_halfClose_discipline_witness :
    ([SockOp.closeWrite .targetSock, .closeRead .client, .closeWrite .client,
      .closeRead .targetSock, .closeFull .targetSock, .closeFull .client].count
        (SockOp.closeFull .client) = 1) ∧
    ([SockOp.closeWrite .targetSock, .closeRead .client, .closeWrite .client,
      .closeRead .targetSock, .closeFull .targetSock, .closeFull .client].drop 4 =
      [SockOp.closeFull .targetSock, SockOp.closeFull .client]) := by
  have h := proxySession_halfClose_discipline Sock.targetSock Sock.client
    [SockOp.closeWrite .targetSock, .closeRead .client, .closeWrite .client,
      .closeRead .targetSock, .closeFull .targetSock, .closeFull .client]
    (by decide)
  exact ⟨h.1, h.2.2.2.1⟩

/-- The one-shot startup reconciliation in `main` (`main.go` lines 153-169):
if the initial status query succeeds with ready replicas > 0 while the local
connection count is 0, one scale-to-0 call is issued; a scale failure is
logged only; a failed status query (incl. not-found) is logged and zero
replicas assumed. In every case the process proceeds to listen (second
component `true`). -/
def startupReconcile (statusResult : Except K8sErr StatefulSetStatus)
    (activeCount : Int) (_scaleOk : Bool) : List Int × Bool :=
  match statusResult with
  | .ok s =>
    if 0 < s.readyReplicas ∧ activeCount = 0 then ([0], true) else ([], true)
  | .error _ => ([], true)

/-- Claim C9: the startup reconciliation issues exactly one scale-to-0 call
iff the status query succeeded with ready > 0 and the local count is 0; it
never issues any other call; it proceeds to listen in every case — including
when the scale call fails and when the status query fails (no scale call is
made then). -/
theorem startupReconcile_policy (statusResult : Except K8sErr StatefulSetStatus)
    (activeCount : Int) (scaleOk : Bool) :
    ((startupReconcile statusResult activeCount scaleOk).1 = [0] ↔
      ∃ s, statusResult = .ok s ∧ 0 < s.readyReplicas ∧ activeCount = 0) ∧
    ((startupReconcile statusResult activeCount scaleOk).1 = [0] ∨
      (startupReconcile statusResult activeCount scaleOk).1 = []) ∧
    (startupReconcile statusResult activeCount scaleOk).2 = true ∧
    (∀ e, statusResult = .error e →
      (startupReconcile statusResult activeCount scaleOk).1 = []) := by
  cases statusResult with
  | error e => simp [startupReconcile]
  | ok s =>
    by_cases hc : 0 < s.readyReplicas ∧ activeCount = 0
    · refine ⟨?_, ?_, ?_, ?_⟩
      · constructor
        · intro _
          exact ⟨s, rfl, hc.1, hc.2⟩
        · intro _
          simp only [startupReconcile]
          rw [if_pos hc]
      · left
        simp only [startupReconcile]
        rw [if_pos hc]
      · simp only [startupReconcile]
        rw [if_pos hc]
      · intro e he
        cases he
    · refine ⟨?_, ?_, ?_, ?_⟩
      · constructor
        · intro h
          simp only [startupReconcile] at h
          rw [if_neg hc] at h
          simp at h
        · rintro ⟨s', hs', h1, h2⟩
          cases hs'
          exact absurd ⟨h1, h2⟩ hc
      · right
        simp only [startupReconcile]
        rw [if_neg hc]
      · simp only [startupReconcile]
        rw [if_neg hc]
      · intro e he
        cases he

/-- Witness for C9 at concrete inputs: ready replica found at startup with no
connections and a failing scale call still scales (one call) and proceeds; a
not-found query makes no call and proceeds. -/
theorem startupReconcile_policy_witness :
    (startupReconcile (.ok ⟨1, 1, 1⟩) 0 false).1 = [0] ∧
    (startupReconcile (.ok ⟨1, 1, 1⟩) 0 false).2 = true ∧
    (startupReconcile (.error .notFound) 0 true).1 = [] ∧
    (startupReconcile (.error .notFound) 0 true).2 = true := by
  have h1 := startupReconcile_policy (.ok ⟨1, 1, 1⟩) 0 false
  have h2 := startupReconcile_policy (.error .notFound) 0 true
  exact ⟨h1.1.mpr ⟨⟨1, 1, 1⟩, rfl, by decide, rfl⟩, h1.2.2.1,
    h2.2.2.2 .notFound rfl, h2.2.2.1⟩

end BuildkitdAutoscaler
